import Mathlib

/-!
Verification of the market-statistics engine and the generation/validation
pipeline of `src/agents.py` (an investment-committee report bot).

The Python source is shallowly embedded:

* price closes and returns are exact rationals (`ℚ`); Python's binary
  floating point arithmetic is modelled exactly, and the only irrational
  operation, `math.sqrt`, is modelled with `Real.sqrt` (for values) or a
  deterministic rational approximation (for displayed text only);
* dict-shaped provider payloads become `Option`-typed structures: `none`
  stands for an absent key, a `None` value or a shape-mismatched value;
* the external generation collaborator (`_repair_section`'s Gemini call) is
  a parameter `repair : Nat → String → String` giving the text the
  collaborator returns for the k-th repair call on a defective draft;
* module-level configuration read from the environment is modelled at its
  documented default (`MAX_REPAIR_PASSES = 2`).
-/

namespace AgentsPy

/-! ## Character-list string utilities

Python's `in` operator on strings is contiguous-substring containment and
`str.strip` removes leading/trailing whitespace; both are embedded over
`List Char` so that every proof reduces in the kernel. -/

/-- `beginsWith pat s` is true when the character list `s` starts with `pat`. -/
def beginsWith : List Char → List Char → Bool
  | [], _ => true
  | _ :: _, [] => false
  | p :: ps, c :: cs => p == c && beginsWith ps cs

/-- `containsSub pat s` is true when `pat` occurs contiguously anywhere in `s`
(the embedding of Python's `pat in s` on strings). -/
def containsSub (pat : List Char) : List Char → Bool
  | [] => beginsWith pat []
  | c :: cs => beginsWith pat (c :: cs) || containsSub pat cs

theorem beginsWith_iff (p : List Char) : ∀ s : List Char,
    (beginsWith p s = true ↔ ∃ t, s = p ++ t) := by
  induction p with
  | nil => intro s; simp [beginsWith]
  | cons a as ih =>
    intro s
    cases s with
    | nil =>
      simp [beginsWith]
    | cons b bs =>
      simp only [beginsWith, Bool.and_eq_true, beq_iff_eq, ih bs, List.cons_append,
        List.cons.injEq]
      constructor
      · rintro ⟨rfl, t, rfl⟩; exact ⟨t, rfl, rfl⟩
      · rintro ⟨t, rfl, rfl⟩; exact ⟨rfl, t, rfl⟩

theorem containsSub_iff (p : List Char) : ∀ s : List Char,
    (containsSub p s = true ↔ ∃ u v, s = u ++ p ++ v) := by
  intro s
  induction s with
  | nil =>
    simp only [containsSub, beginsWith_iff]
    constructor
    · rintro ⟨t, ht⟩
      exact ⟨[], t, by simpa using ht⟩
    · rintro ⟨u, v, huv⟩
      refine ⟨v, ?_⟩
      have hu : u = [] := by
        cases u with
        | nil => rfl
        | cons x xs => simp at huv
      subst hu
      simpa using huv
  | cons c cs ih =>
    simp only [containsSub, Bool.or_eq_true, beginsWith_iff, ih]
    constructor
    · rintro (⟨t, ht⟩ | ⟨u, v, rfl⟩)
      · exact ⟨[], t, by simpa using ht⟩
      · exact ⟨c :: u, v, rfl⟩
    · rintro ⟨u, v, huv⟩
      cases u with
      | nil =>
        left; exact ⟨v, by simpa using huv⟩
      | cons x xs =>
        right
        refine ⟨xs, v, ?_⟩
        have := huv
        simp only [List.cons_append, List.cons.injEq] at this
        exact this.2

/-- The embedding of Python `str.strip()`: drop leading and trailing
whitespace characters. -/
def pyStrip (s : String) : String :=
  String.mk (((s.data.dropWhile Char.isWhitespace).reverse.dropWhile
    Char.isWhitespace).reverse)

/-- Split a character list at newline characters, the embedding of Python
`text.split("\n")` (so `""` gives one empty line and a trailing newline gives
a final empty line). -/
def splitLines : List Char → List (List Char)
  | [] => [[]]
  | c :: cs =>
    if c = '\n' then [] :: splitLines cs
    else
      match splitLines cs with
      | [] => [[c]]
      | l :: ls => (c :: l) :: ls

/-! ## Validator (`_count_bullets`, `_has_fields`, `_ensure_valid`)

`_count_bullets` counts the matches of the multiline regex `^\s*-\s+`; it is
modelled line-wise: a line counts when, after leading whitespace, it has a
dash followed by at least one whitespace character. -/

/-- One line of a section matches the bullet pattern `^\s*-\s+`. -/
def isBulletLine (l : List Char) : Bool :=
  match l.dropWhile Char.isWhitespace with
  | '-' :: c :: _ => c.isWhitespace
  | _ => false

/-- Embedding of `_count_bullets` from `src/agents.py`. -/
def _count_bullets (text : String) : ℕ :=
  ((splitLines text.data).filter isBulletLine).length

/-- Embedding of `_has_fields` from `src/agents.py`:
`all(f in text for f in fields)`. -/
def _has_fields (text : String) (fields : List String) : Bool :=
  fields.all fun f => containsSub f.data text.data

/-- Default of the module constant `MAX_REPAIR_PASSES` (the environment
override is out of scope). -/
def MAX_REPAIR_PASSES : ℕ := 2

/-- The compliance check of `_ensure_valid`:
`ok_fields and ok_bullets`. -/
def checkSection (fields : List String) (minBullets : ℕ) (text : String) : Bool :=
  _has_fields text fields && decide (minBullets ≤ _count_bullets text)

/-- The loop of `_ensure_valid`: `fuel` remaining iterations, `calls` repair
calls issued so far.  Each iteration returns the current text when the check
passes and otherwise replaces it with the repair collaborator's answer.  The
pair returned is (final text, number of repair calls issued). -/
def ensureValidAux (repair : ℕ → String → String) (fields : List String)
    (minBullets : ℕ) : ℕ → ℕ → String → String × ℕ
  | 0, calls, text => (text, calls)
  | fuel + 1, calls, text =>
    if checkSection fields minBullets text then (text, calls)
    else ensureValidAux repair fields minBullets fuel (calls + 1) (repair calls text)

/-- Embedding of `_ensure_valid` from `src/agents.py`, instrumented with the
count of repair-generation calls.  The source loop runs
`for _ in range(MAX_REPAIR_PASSES + 1)` over check-then-repair and finally
returns the current text.  The section name and factsheet only feed the
repair prompt, so they are folded into the `repair` collaborator. -/
def _ensure_valid_count (repair : ℕ → String → String) (fields : List String)
    (minBullets : ℕ) (draft : String) : String × ℕ :=
  ensureValidAux repair fields minBullets (MAX_REPAIR_PASSES + 1) 0 (pyStrip draft)

/-- Embedding of `_ensure_valid` from `src/agents.py` (returned text only,
exactly the source's return value). -/
def _ensure_valid (repair : ℕ → String → String) (fields : List String)
    (minBullets : ℕ) (draft : String) : String :=
  (_ensure_valid_count repair fields minBullets draft).1

theorem ensureValidAux_zero (repair : ℕ → String → String) (fields : List String)
    (minBullets calls : ℕ) (text : String) :
    ensureValidAux repair fields minBullets 0 calls text = (text, calls) := rfl

theorem ensureValidAux_succ (repair : ℕ → String → String) (fields : List String)
    (minBullets fuel calls : ℕ) (text : String) :
    ensureValidAux repair fields minBullets (fuel + 1) calls text =
      if checkSection fields minBullets text then (text, calls)
      else ensureValidAux repair fields minBullets fuel (calls + 1)
        (repair calls text) := rfl

/-! ## Provider bundle (`fetch_market_bundle`'s shape, as consumed by
`_extract_closes` and `_make_factsheet`)

The bundle is a dict of provider payloads built by the out-of-scope fetch
collaborator (`src/data_sources.py`).  Only the parts the core reads are
modelled; `none` stands for an absent key, a `None` value, or a value whose
shape fails the source's `isinstance` probes. -/

/-- The `data` dict of the `yahoo_quote` payload (descriptive metadata). -/
structure YahooQuoteData where
  longName : Option String
  shortName : Option String
  marketCap : Option ℚ
  currency : Option String
  exchange : Option String
  sector : Option String
  industry : Option String
deriving DecidableEq

/-- The all-absent quote payload. -/
def emptyQuote : YahooQuoteData := ⟨none, none, none, none, none, none, none⟩

/-- The provider bundle as consumed by the core:

* `yahoo_chart`: the `closes` list of the `yahoo_chart` payload; each entry
  is `none` for a `None` close (the source of `_extract_closes` filters
  exactly those out);
* `stooq_rows`: the `Close` cell of each data row of the `stooq` CSV payload,
  `none` when the cell is missing or does not parse as a float (the `csv`
  module's lexing is abstracted to the row/cell level);
* `aggs_results`: the `results` list of the `aggs_30d` Massive payload; each
  entry is the row's `"c"` value, `none` when missing or not a number;
* `benchmark_chart`: the `closes` list of the `benchmark_chart` payload. -/
structure Bundle where
  yahoo_chart : Option (List (Option ℚ))
  stooq_rows : List (Option ℚ)
  aggs_results : Option (List (Option ℚ))
  yahoo_quote : YahooQuoteData
  benchmark : Option String
  benchmark_chart : Option (List ℚ)

/-! ## Series Extractor (`_parse_stooq_csv`, `_extract_closes`) -/

/-- Python `xs[-n:]`: the at most `n` last elements. -/
def lastN (n : ℕ) (l : List ℚ) : List ℚ := l.drop (l.length - n)

/-- Embedding of `_parse_stooq_csv` from `src/agents.py`: keep, in order, the
`Close` cells that parse and are positive. -/
def _parse_stooq_csv (rows : List (Option ℚ)) : List ℚ :=
  (rows.filterMap id).filter fun v => 0 < v

/-- The yahoo closes with `None` entries removed — the source's
`[float(x) for x in y_closes if x is not None]` (note: non-positive closes
are NOT removed here). -/
def yahooCleaned (b : Bundle) : List ℚ :=
  (b.yahoo_chart.getD []).filterMap id

/-- The Massive aggregate closes: numeric positive `"c"` values of the rows. -/
def massiveCloses (b : Bundle) : List ℚ :=
  ((b.aggs_results.getD []).filterMap id).filter fun c => 0 < c

/-- The yahoo source qualifies: the raw list exists with ≥ 10 entries and
≥ 10 entries survive the `None` filter. -/
def yahooAccept (b : Bundle) : Bool :=
  match b.yahoo_chart with
  | none => false
  | some ys => decide (10 ≤ ys.length) && decide (10 ≤ (ys.filterMap id).length)

/-- The stooq source qualifies: ≥ 10 positive parsed closes. -/
def stooqAccept (b : Bundle) : Bool :=
  decide (10 ≤ (_parse_stooq_csv b.stooq_rows).length)

/-- The Massive source qualifies: a nonempty `results` list with ≥ 10
positive numeric closes. -/
def massiveAccept (b : Bundle) : Bool :=
  match b.aggs_results with
  | none => false
  | some rs => !rs.isEmpty && decide (10 ≤ (massiveCloses b).length)

/-- Third stage of `_extract_closes`: the Massive `aggs_30d` source. -/
def extractFromMassive (b : Bundle) : List ℚ × String :=
  match b.aggs_results with
  | some rs =>
    if rs.isEmpty then ([], "none")
    else if 10 ≤ ((rs.filterMap id).filter fun c => 0 < c).length then
      (lastN 30 ((rs.filterMap id).filter fun c => 0 < c), "massive_aggs_30d")
    else ([], "none")
  | none => ([], "none")

/-- Second stage of `_extract_closes`: the stooq CSV source, falling through
to Massive. -/
def extractFromStooq (b : Bundle) : List ℚ × String :=
  if 10 ≤ (_parse_stooq_csv b.stooq_rows).length then
    (lastN 30 (_parse_stooq_csv b.stooq_rows), "stooq")
  else extractFromMassive b

/-- Embedding of `_extract_closes` from `src/agents.py`.  The source tries
yahoo chart closes first, then stooq CSV closes, then Massive aggregate
closes, and returns `([], "none")` when no source qualifies; the helper
definitions `extractFromStooq`/`extractFromMassive` are the source's
fall-through after an early `return`. -/
def _extract_closes (b : Bundle) : List ℚ × String :=
  match b.yahoo_chart with
  | some y_closes =>
    if 10 ≤ y_closes.length then
      if 10 ≤ (y_closes.filterMap id).length then
        (lastN 30 (y_closes.filterMap id), "yahoo_chart")
      else extractFromStooq b
    else extractFromStooq b
  | none => extractFromStooq b

/-! ## Statistics Engine (`_daily_returns_from_closes`, `_max_drawdown`,
`_best_worst_day`, `_corr`, `_beta`, `_calc_stats`) -/

/-- Embedding of `_daily_returns_from_closes` from `src/agents.py`: the
period-over-period return for each consecutive pair whose previous close is
positive (the source's `if prev and prev > 0` is equivalent to `prev > 0`). -/
def _daily_returns_from_closes : List ℚ → List ℚ
  | a :: b :: t => (if 0 < a then [b / a - 1] else []) ++ _daily_returns_from_closes (b :: t)
  | _ => []

/-- The fold of `_max_drawdown`'s loop: running peak and most negative
drawdown seen. -/
def mddAux : ℚ → ℚ → List ℚ → ℚ
  | _, mdd, [] => mdd
  | peak, mdd, p :: t =>
    let peak2 := if peak < p then p else peak
    let dd := p / peak2 - 1
    let mdd2 := if dd < mdd then dd else mdd
    mddAux peak2 mdd2 t

/-- Embedding of `_max_drawdown` from `src/agents.py`: `None` below 3 points,
otherwise the most negative drawdown against the running peak (starting at
the first close, with `mdd` starting at `0`). -/
def _max_drawdown (closes : List ℚ) : Option ℚ :=
  if closes.length < 3 then none
  else some (mddAux closes.headI 0 closes.tail)

/-- Embedding of `_best_worst_day` from `src/agents.py`: `max`/`min` of the
return list, `(None, None)` when it is empty. -/
def _best_worst_day (daily : List ℚ) : Option ℚ × Option ℚ :=
  match daily with
  | [] => (none, none)
  | h :: t => (some (t.foldl max h), some (t.foldl min h))

/-- Mean of a list, the source's `sum(xs) / len(xs)`. -/
def listMean (l : List ℚ) : ℚ := l.sum / (l.length : ℚ)

/-- Sample variance, the source's `sum((x - mean) ** 2) / (len - 1)`. -/
def sampleVar (l : List ℚ) : ℚ :=
  (l.map fun x => (x - listMean l) ^ 2).sum / ((l.length : ℚ) - 1)

/-- Mean of the trailing `n`-window of a list — the source's
`sum(x) / n` after `x = x[-n:]` in `_corr`/`_beta`. -/
def meanTrail (n : ℕ) (l : List ℚ) : ℚ := (lastN n l).sum / (n : ℚ)

/-- Sample variance of the trailing `n`-window — the source's `vx`/`vy`/`vb`. -/
def varTrail (n : ℕ) (l : List ℚ) : ℚ :=
  ((lastN n l).map fun a => (a - meanTrail n l) ^ 2).sum / ((n : ℚ) - 1)

/-- Sample covariance of the trailing `n`-windows — the source's `cov`. -/
def covTrail (n : ℕ) (x y : List ℚ) : ℚ :=
  (((lastN n x).zip (lastN n y)).map
    fun p => (p.1 - meanTrail n x) * (p.2 - meanTrail n y)).sum / ((n : ℚ) - 1)

/-- Embedding of `_corr` from `src/agents.py`: Pearson correlation of the
trailing overlap of the two return series; `none` when the overlap is
shorter than 5 or either sample variance is `≤ 0`. -/
noncomputable def _corr (x y : List ℚ) : Option ℝ :=
  if min x.length y.length < 5 then none
  else if varTrail (min x.length y.length) x ≤ 0 ∨
      varTrail (min x.length y.length) y ≤ 0 then none
  else some ((covTrail (min x.length y.length) x y : ℝ) /
    (Real.sqrt (varTrail (min x.length y.length) x : ℝ) *
      Real.sqrt (varTrail (min x.length y.length) y : ℝ)))

/-- Embedding of `_beta` from `src/agents.py`: OLS beta
`cov(asset, bench) / var(bench)` on the trailing overlap; `none` when the
overlap is shorter than 5 or the benchmark variance is `≤ 0`. -/
def _beta (asset_rets bench_rets : List ℚ) : Option ℚ :=
  if min asset_rets.length bench_rets.length < 5 then none
  else if varTrail (min asset_rets.length bench_rets.length) bench_rets ≤ 0 then none
  else some (covTrail (min asset_rets.length bench_rets.length) asset_rets bench_rets /
    varTrail (min asset_rets.length bench_rets.length) bench_rets)

/-- The statistics record `_calc_stats` returns.  The source's not-ok result
is the dict `{"ok": False}` with every other key absent, embedded as the
all-`none` record `statsNotOk`.  The source's `vol_annual`
(`stdev_daily * sqrt(252)`, a float) is carried as its square
`vol_annual_sq = var_daily * 252`, an exact rational; `StatsRecord.vol_annual`
recovers the source's value by `Real.sqrt`. -/
structure StatsRecord where
  ok : Bool
  last_close : Option ℚ
  ret_30d : Option ℚ
  vol_annual_sq : Option ℚ
  regime : Option String
  n_points : Option ℕ
  max_drawdown_30d : Option ℚ
  best_day : Option ℚ
  worst_day : Option ℚ
deriving DecidableEq

/-- The `{"ok": False}` record: no statistic is present, no default numeric
value stands in for one. -/
def statsNotOk : StatsRecord :=
  ⟨false, none, none, none, none, none, none, none, none⟩

/-- The source's annualized volatility `sqrt(var_daily) * sqrt(252)`, as the
square root of the stored square. -/
noncomputable def StatsRecord.vol_annual (s : StatsRecord) : Option ℝ :=
  s.vol_annual_sq.map fun v => Real.sqrt (v : ℝ)

/-- The volatility-regime classification of `_calc_stats`, on the squared
annualized volatility: the source compares `vol_annual` to `0.25` and `0.40`,
which for a nonnegative volatility is comparing its square to
`1/16 = 0.25²` and `4/25 = 0.40²` (see `sqrt_lt_threshold_iff`). -/
def regimeOfSq : Option ℚ → String
  | none => "UNKNOWN"
  | some v => if v < 1 / 16 then "CALM" else if v < 4 / 25 then "NORMAL" else "ELEVATED"

/-- For a nonnegative radicand, comparing the square root to a positive
threshold is comparing the radicand to the threshold's square — the bridge
between `regimeOfSq` and the source's comparisons on `vol_annual`. -/
theorem sqrt_lt_threshold_iff (v c : ℝ) (hc : 0 < c) :
    Real.sqrt v < c ↔ v < c ^ 2 :=
  Real.sqrt_lt' hc

/-- Embedding of `_calc_stats` from `src/agents.py`.  `closes[-1]` and
`closes[0]` are total (`getLastD`/`headI`) under the `length ≥ 10` guard. -/
def _calc_stats (closes : List ℚ) : StatsRecord :=
  if closes.length < 10 then statsNotOk
  else
    let ret30 := closes.getLastD 0 / closes.headI - 1
    let daily := _daily_returns_from_closes closes
    let volSq : Option ℚ :=
      if 2 ≤ daily.length then some (sampleVar daily * 252) else none
    let bw := _best_worst_day daily
    { ok := true
      last_close := some (closes.getLastD 0)
      ret_30d := some ret30
      vol_annual_sq := volSq
      regime := some (regimeOfSq volSq)
      n_points := some closes.length
      max_drawdown_30d := _max_drawdown closes
      best_day := bw.1
      worst_day := bw.2 }

/-! ## Factsheet Builder (`_make_factsheet`)

Python's fixed-point float formatting (`f"{v:.2f}"`) is embedded by exact
rational rounding (ties to even); `math.sqrt` inside a displayed value is
embedded by the deterministic rational approximation `sqrtQ`.  Both choices
only affect which deterministic text is produced, never whether the builder
is deterministic, and no claim depends on the displayed digits. -/

/-- Integer and fractional string of a natural number. -/
def padZeros (w : ℕ) (s : String) : String :=
  String.mk (List.replicate (w - s.length) '0') ++ s

/-- Round to the nearest integer, ties to even (the rounding of Python's
fixed-point formatting). -/
def roundHalfEven (q : ℚ) : ℤ :=
  let f := ⌊q⌋
  let r := q - (f : ℚ)
  if r < 1 / 2 then f
  else if 1 / 2 < r then f + 1
  else if f % 2 = 0 then f else f + 1

/-- Embedding of Python's `f"{q:.prec f}"` fixed-point formatting on an exact
rational. -/
def fmtFixed (prec : ℕ) (q : ℚ) : String :=
  let n := roundHalfEven (q * ((10 : ℚ) ^ prec))
  let sign := if n < 0 then "-" else ""
  let m := n.natAbs
  if prec = 0 then sign ++ toString m
  else sign ++ toString (m / 10 ^ prec) ++ "." ++ padZeros prec (toString (m % 10 ^ prec))

/-- The `f"{q*100:.1f}%"` percentage lines of the factsheet. -/
def fmtPct (q : ℚ) : String := fmtFixed 1 (q * 100) ++ "%"

/-- Deterministic rational square-root approximation used only for displayed
text (`√q = √(num·den)/den` with `Nat.sqrt` on the scaled numerator). -/
def sqrtQ (q : ℚ) : ℚ :=
  if q ≤ 0 then 0 else ((Nat.sqrt (q.num.toNat * q.den) : ℚ) / (q.den : ℚ))

/-- Display version of `_corr`: same guards as `_corr`, with `sqrtQ` in place
of `math.sqrt` so the factsheet text is computable. -/
def corrDisplay (x y : List ℚ) : Option ℚ :=
  if min x.length y.length < 5 then none
  else if varTrail (min x.length y.length) x ≤ 0 ∨
      varTrail (min x.length y.length) y ≤ 0 then none
  else some (covTrail (min x.length y.length) x y /
    (sqrtQ (varTrail (min x.length y.length) x) *
      sqrtQ (varTrail (min x.length y.length) y)))

/-- `corrDisplay` is `none` exactly when the faithful `_corr` is. -/
theorem corrDisplay_none_iff (x y : List ℚ) :
    corrDisplay x y = none ↔ _corr x y = none := by
  unfold corrDisplay _corr
  split
  · simp
  · split <;> simp

/-- Decimal display of a rational (used for the `MARKET_CAP` line; market
caps are integers in practice). -/
def showQ (q : ℚ) : String :=
  if q.den = 1 then toString q.num else toString q.num ++ "/" ++ toString q.den

/-- Python truthiness of an optional string (`None` and `""` are falsy). -/
def truthyS : Option String → Bool
  | none => false
  | some s => !s.isEmpty

/-- Python truthiness of an optional number (`None` and `0` are falsy). -/
def truthyQ : Option ℚ → Bool
  | none => false
  | some q => decide (q ≠ 0)

/-- The `meta` dict `_make_factsheet` returns alongside the text. -/
structure FactsheetMeta where
  source : String
  stats : StatsRecord
  bench_stats : StatsRecord
deriving DecidableEq

/-- The asset close series selected by the extractor. -/
def assetCloses (b : Bundle) : List ℚ := (_extract_closes b).1

/-- The provenance tag selected by the extractor. -/
def sourceTag (b : Bundle) : String := (_extract_closes b).2

/-- The subject StatsRecord of `_make_factsheet`
(`_calc_stats(closes) if closes else {"ok": False}`). -/
def assetStats (b : Bundle) : StatsRecord :=
  if (assetCloses b).isEmpty then statsNotOk else _calc_stats (assetCloses b)

/-- The benchmark closes of `_make_factsheet` (`[]` when the payload or its
`closes` list is absent/mis-shaped). -/
def benchClosesOf (b : Bundle) : List ℚ := b.benchmark_chart.getD []

/-- The benchmark StatsRecord of `_make_factsheet`. -/
def benchStatsOf (b : Bundle) : StatsRecord :=
  if (benchClosesOf b).isEmpty then statsNotOk else _calc_stats (benchClosesOf b)

/-- The subject's daily returns as recomputed inside `_make_factsheet`. -/
def assetRetsOf (b : Bundle) : List ℚ := _daily_returns_from_closes (assetCloses b)

/-- The benchmark's daily returns as recomputed inside `_make_factsheet`. -/
def benchRetsOf (b : Bundle) : List ℚ := _daily_returns_from_closes (benchClosesOf b)

/-- `_make_factsheet`'s guard for the relative block: both records ok. -/
def bothOk (b : Bundle) : Bool := (assetStats b).ok && (benchStatsOf b).ok

/-- The `corr` local of `_make_factsheet`: `None` unless both records are ok,
else `_corr` of the two return series. -/
noncomputable def corrOf (b : Bundle) : Option ℝ :=
  if bothOk b then _corr (assetRetsOf b) (benchRetsOf b) else none

/-- The `beta` local of `_make_factsheet`. -/
def betaOf (b : Bundle) : Option ℚ :=
  if bothOk b then _beta (assetRetsOf b) (benchRetsOf b) else none

/-- The `rel` local of `_make_factsheet`:
`stats["ret_30d"] - bench_stats["ret_30d"]` whenever both records are ok. -/
def relOf (b : Bundle) : Option ℚ :=
  if bothOk b then
    some ((assetStats b).ret_30d.getD 0 - (benchStatsOf b).ret_30d.getD 0)
  else none

/-- Embedding of `_make_factsheet` from `src/agents.py`: the ordered fact
lines joined by newlines, plus the meta record.  It is a pure function of
the ticker and the bundle — the source reads no clock, environment or other
ambient state. -/
def _make_factsheet (ticker : String) (b : Bundle) : String × FactsheetMeta :=
  let source := sourceTag b
  let stats := assetStats b
  let yq := b.yahoo_quote
  let name := if truthyS yq.longName then yq.longName else yq.shortName
  let benchmark := b.benchmark.getD "^GSPC"
  let bench_stats := benchStatsOf b
  let corr := if bothOk b then corrDisplay (assetRetsOf b) (benchRetsOf b) else none
  let beta := betaOf b
  let rel := relOf b
  let dq :=
    if stats.ok then
      "OK: " ++ source ++ " with " ++ toString (stats.n_points.getD 0) ++ " daily closes"
    else "LOW: not enough daily closes"
  let facts : List String :=
    ["TICKER: " ++ ticker]
    ++ (if truthyS name then ["NAME: " ++ name.getD ""] else [])
    ++ (if truthyS yq.exchange then ["EXCHANGE: " ++ yq.exchange.getD ""] else [])
    ++ (if truthyS yq.currency then ["CURRENCY: " ++ yq.currency.getD ""] else [])
    ++ (if truthyS yq.sector then ["SECTOR: " ++ yq.sector.getD ""] else [])
    ++ (if truthyS yq.industry then ["INDUSTRY: " ++ yq.industry.getD ""] else [])
    ++ (if truthyQ yq.marketCap then ["MARKET_CAP: " ++ showQ (yq.marketCap.getD 0)] else [])
    ++ ["DATA_QUALITY: " ++ dq]
    ++ (if stats.ok then
          ["LAST_CLOSE: " ++ fmtFixed 2 (stats.last_close.getD 0),
           "RETURN_30D: " ++ fmtPct (stats.ret_30d.getD 0)]
          ++ (match stats.vol_annual_sq with
              | some v => ["VOLATILITY_ANNUALIZED: " ++ fmtPct (sqrtQ v)]
              | none => [])
          ++ ["VOL_REGIME: " ++ stats.regime.getD "UNKNOWN"]
          ++ (match stats.max_drawdown_30d with
              | some m => ["MAX_DRAWDOWN_30D: " ++ fmtPct m]
              | none => [])
          ++ (match stats.best_day with
              | some v => ["BEST_DAY: " ++ fmtPct v]
              | none => [])
          ++ (match stats.worst_day with
              | some v => ["WORST_DAY: " ++ fmtPct v]
              | none => [])
        else [])
    ++ ["BENCHMARK: " ++ benchmark]
    ++ (if bench_stats.ok then
          ["BENCHMARK_RETURN_30D: " ++ fmtPct (bench_stats.ret_30d.getD 0)]
          ++ (match rel with
              | some r => ["RELATIVE_RETURN_30D: " ++ fmtPct r]
              | none => [])
          ++ (match corr with
              | some c => ["CORRELATION_TO_BENCH: " ++ fmtFixed 2 c]
              | none => [])
          ++ (match beta with
              | some v => ["BETA_TO_BENCH: " ++ fmtFixed 2 v]
              | none => [])
        else ["BENCHMARK_DATA: LOW"])
  (String.intercalate "\n" facts, ⟨source, stats, bench_stats⟩)

/-! ## Concrete bundles used by counterexamples and witnesses -/

/-- Wrap plain closes as an all-present payload list. -/
def qsome (l : List ℚ) : List (Option ℚ) := l.map some

/-- A bundle where both the yahoo chart source and the paid Massive source
hold 10 qualifying closes. -/
def bundleBoth : Bundle :=
  { yahoo_chart := some (qsome [1, 2, 3, 4, 5, 6, 7, 8, 9, 10])
    stooq_rows := []
    aggs_results := some (qsome [11, 12, 13, 14, 15, 16, 17, 18, 19, 20])
    yahoo_quote := emptyQuote
    benchmark := none
    benchmark_chart := none }

/-- A bundle whose yahoo chart closes include a non-positive value among 10
non-missing entries. -/
def bundleNeg : Bundle :=
  { yahoo_chart := some (qsome [1, 1, 1, 1, 1, 1, 1, 1, 1, -5])
    stooq_rows := []
    aggs_results := none
    yahoo_quote := emptyQuote
    benchmark := none
    benchmark_chart := none }

/-- A bundle where both records are ok (10 closes each) but the subject's
usable return window has a single point: eight non-positive closes suppress
the subject's returns. -/
def bundleShortOverlap : Bundle :=
  { yahoo_chart := some (qsome [-1, -1, -1, -1, -1, -1, -1, -1, 2, 3])
    stooq_rows := []
    aggs_results := none
    yahoo_quote := emptyQuote
    benchmark := none
    benchmark_chart := some [1, 2, 3, 4, 5, 6, 7, 8, 9, 10] }

/-- A small bundle for the factsheet determinism witness. -/
def bundleEx : Bundle :=
  { yahoo_chart := none
    stooq_rows := qsome [3, 4]
    aggs_results := none
    yahoo_quote := emptyQuote
    benchmark := some "^FCHI"
    benchmark_chart := none }

/-! ## Series Extractor lemmas -/

theorem lastN_length_le (n : ℕ) (l : List ℚ) : (lastN n l).length ≤ n := by
  unfold lastN
  rw [List.length_drop]
  omega

theorem lastN_length_of_le (n : ℕ) (l : List ℚ) (h : n ≤ l.length) :
    (lastN n l).length = n := by
  unfold lastN
  rw [List.length_drop]
  omega

theorem mem_of_mem_lastN (n : ℕ) (l : List ℚ) (x : ℚ) (h : x ∈ lastN n l) :
    x ∈ l :=
  (List.drop_sublist _ l).mem h

theorem parse_stooq_pos (rows : List (Option ℚ)) (x : ℚ)
    (h : x ∈ _parse_stooq_csv rows) : 0 < x := by
  unfold _parse_stooq_csv at h
  exact of_decide_eq_true (List.mem_filter.mp h).2

theorem massiveCloses_pos (b : Bundle) (x : ℚ) (h : x ∈ massiveCloses b) :
    0 < x := by
  unfold massiveCloses at h
  exact of_decide_eq_true (List.mem_filter.mp h).2

theorem extract_yahoo_of (b : Bundle) (h : yahooAccept b = true) :
    _extract_closes b = (lastN 30 (yahooCleaned b), "yahoo_chart") := by
  cases hY : b.yahoo_chart with
  | none => simp [yahooAccept, hY] at h
  | some ys =>
    simp only [yahooAccept, hY, Bool.and_eq_true, decide_eq_true_eq] at h
    simp only [_extract_closes, hY, if_pos h.1, if_pos h.2, yahooCleaned, hY,
      Option.getD_some]

theorem extract_to_stooq (b : Bundle) (h : yahooAccept b = false) :
    _extract_closes b = extractFromStooq b := by
  cases hY : b.yahoo_chart with
  | none => simp only [_extract_closes, hY]
  | some ys =>
    simp only [yahooAccept, hY, Bool.and_eq_false_iff, decide_eq_false_iff_not,
      not_le] at h
    simp only [_extract_closes, hY]
    rcases h with h1 | h2
    · rw [if_neg (by omega)]
    · by_cases hlen : 10 ≤ ys.length
      · rw [if_pos hlen, if_neg (by omega)]
      · rw [if_neg hlen]

theorem stooq_accept_eq (b : Bundle) (h : stooqAccept b = true) :
    extractFromStooq b = (lastN 30 (_parse_stooq_csv b.stooq_rows), "stooq") := by
  simp only [stooqAccept, decide_eq_true_eq] at h
  simp only [extractFromStooq, if_pos h]

theorem stooq_to_massive (b : Bundle) (h : stooqAccept b = false) :
    extractFromStooq b = extractFromMassive b := by
  simp only [stooqAccept, decide_eq_false_iff_not] at h
  simp only [extractFromStooq, if_neg h]

theorem massive_accept_eq (b : Bundle) (h : massiveAccept b = true) :
    extractFromMassive b = (lastN 30 (massiveCloses b), "massive_aggs_30d") := by
  cases hA : b.aggs_results with
  | none => simp [massiveAccept, hA] at h
  | some rs =>
    simp only [massiveAccept, hA, Bool.and_eq_true, Bool.not_eq_true',
      decide_eq_true_eq] at h
    obtain ⟨hne, hlen⟩ := h
    have hm : massiveCloses b = (rs.filterMap id).filter fun c => 0 < c := by
      simp [massiveCloses, hA]
    rw [hm] at hlen
    simp only [extractFromMassive, hA, hne, Bool.false_eq_true, if_false,
      if_pos hlen, hm]

theorem massive_reject_none (b : Bundle) (h : massiveAccept b = false) :
    extractFromMassive b = ([], "none") := by
  cases hA : b.aggs_results with
  | none => simp only [extractFromMassive, hA]
  | some rs =>
    simp only [massiveAccept, hA, Bool.and_eq_false_iff, Bool.not_eq_false',
      decide_eq_false_iff_not] at h
    have hm : massiveCloses b = (rs.filterMap id).filter fun c => 0 < c := by
      simp [massiveCloses, hA]
    rcases h with he | hlt
    · simp only [extractFromMassive, hA, he, if_true]
    · rw [hm] at hlt
      by_cases he : rs.isEmpty
      · simp only [extractFromMassive, hA, he, if_true]
      · simp only [extractFromMassive, hA, he, Bool.false_eq_true, if_false,
          if_neg hlt]

/-- Every possible result of the extractor: one of the three tagged sources'
trailing-30 series, or the empty series tagged `"none"`. -/
theorem extract_closes_cases (b : Bundle) :
    _extract_closes b = (lastN 30 (yahooCleaned b), "yahoo_chart") ∨
    _extract_closes b = (lastN 30 (_parse_stooq_csv b.stooq_rows), "stooq") ∨
    _extract_closes b = (lastN 30 (massiveCloses b), "massive_aggs_30d") ∨
    _extract_closes b = ([], "none") := by
  cases hy : yahooAccept b with
  | true => exact Or.inl (extract_yahoo_of b hy)
  | false =>
    rw [extract_to_stooq b hy]
    cases hs : stooqAccept b with
    | true => exact Or.inr (Or.inl (stooq_accept_eq b hs))
    | false =>
      rw [stooq_to_massive b hs]
      cases hm : massiveAccept b with
      | true => exact Or.inr (Or.inr (Or.inl (massive_accept_eq b hm)))
      | false => exact Or.inr (Or.inr (Or.inr (massive_reject_none b hm)))

/-- C1 counterexample: in `bundleBoth` the paid Massive aggregates source
holds a qualifying (≥ 10 usable points) series, yet the extractor returns
the yahoo chart series — the primary paid source is NOT tried first, so the
claimed priority order is false. -/
theorem extract_ignores_paid_priority_cx :
    (_extract_closes bundleBoth).2 = "yahoo_chart" ∧
    massiveAccept bundleBoth = true ∧
    ("yahoo_chart" : String) ≠ "massive_aggs_30d" := by decide

/-- C1 (corrected): the Series Extractor tries the sources in the fixed
priority order yahoo chart (free), then stooq (free), then the paid Massive
aggregates LAST; it returns the first source whose cleaned series has at
least 10 usable points, tagged with its provenance, and the empty series
tagged `"none"` when no source qualifies. -/
theorem extract_priority_order (b : Bundle) :
    (yahooAccept b = true →
      _extract_closes b = (lastN 30 (yahooCleaned b), "yahoo_chart")) ∧
    (yahooAccept b = false → stooqAccept b = true →
      _extract_closes b = (lastN 30 (_parse_stooq_csv b.stooq_rows), "stooq")) ∧
    (yahooAccept b = false → stooqAccept b = false → massiveAccept b = true →
      _extract_closes b = (lastN 30 (massiveCloses b), "massive_aggs_30d")) ∧
    (yahooAccept b = false → stooqAccept b = false → massiveAccept b = false →
      _extract_closes b = ([], "none")) := by
  refine ⟨extract_yahoo_of b, ?_, ?_, ?_⟩
  · intro hy hs
    rw [extract_to_stooq b hy, stooq_accept_eq b hs]
  · intro hy hs hm
    rw [extract_to_stooq b hy, stooq_to_massive b hs, massive_accept_eq b hm]
  · intro hy hs hm
    rw [extract_to_stooq b hy, stooq_to_massive b hs, massive_reject_none b hm]

/-- C5 counterexample: `bundleNeg`'s yahoo closes hold 10 non-missing values
one of which is `-5`; the extractor accepts the series and returns it with
the non-positive close retained, so the returned series does not consist
solely of positive closes. -/
theorem extract_nonpositive_close_retained_cx :
    (_extract_closes bundleNeg).2 = "yahoo_chart" ∧
    (-5 : ℚ) ∈ (_extract_closes bundleNeg).1 ∧
    ¬ (0 : ℚ) < -5 := by decide

/-- C5 (corrected): every returned series keeps at most the 30 most recent
points, and the stooq and Massive sources discard non-positive and missing
values before the ≥ 10 threshold; the yahoo path discards only missing
values, so a non-positive yahoo close can be retained. -/
theorem extract_series_bounded_and_fallback_positive (b : Bundle) :
    (_extract_closes b).1.length ≤ 30 ∧
    ((_extract_closes b).2 = "stooq" → ∀ x ∈ (_extract_closes b).1, 0 < x) ∧
    ((_extract_closes b).2 = "massive_aggs_30d" →
      ∀ x ∈ (_extract_closes b).1, 0 < x) := by
  rcases extract_closes_cases b with h | h | h | h <;> rw [h]
  · exact ⟨lastN_length_le 30 _, fun hs => by simp at hs, fun hm => by simp at hm⟩
  · refine ⟨lastN_length_le 30 _, fun _ x hx => ?_, fun hm => by simp at hm⟩
    exact parse_stooq_pos b.stooq_rows x (mem_of_mem_lastN 30 _ x hx)
  · refine ⟨lastN_length_le 30 _, fun hs => by simp at hs, fun _ x hx => ?_⟩
    exact massiveCloses_pos b x (mem_of_mem_lastN 30 _ x hx)
  · exact ⟨by simp, fun _ x hx => absurd hx (List.not_mem_nil x),
      fun _ x hx => absurd hx (List.not_mem_nil x)⟩

/-! ## Statistics Engine and relative-stats lemmas -/

theorem calc_stats_ok_iff (closes : List ℚ) :
    (_calc_stats closes).ok = true ↔ 10 ≤ closes.length := by
  unfold _calc_stats
  split
  · next h => simp only [statsNotOk, Bool.false_eq_true, false_iff]; omega
  · next h => simp only [true_iff]; omega

theorem corr_ne_none_overlap (x y : List ℚ) (h : _corr x y ≠ none) :
    5 ≤ min x.length y.length := by
  unfold _corr at h
  by_cases h5 : min x.length y.length < 5
  · rw [if_pos h5] at h
    exact absurd rfl h
  · omega

theorem beta_ne_none_overlap (x y : List ℚ) (h : _beta x y ≠ none) :
    5 ≤ min x.length y.length := by
  unfold _beta at h
  by_cases h5 : min x.length y.length < 5
  · rw [if_pos h5] at h
    exact absurd rfl h
  · omega

theorem bothOk_iff (b : Bundle) :
    bothOk b = true ↔ (assetStats b).ok = true ∧ (benchStatsOf b).ok = true := by
  simp [bothOk, Bool.and_eq_true]

/-- C4 counterexample: in `bundleShortOverlap` both StatsRecords are ok but
the overlapping return window has length 1 < 5, and `relative_return` is
nevertheless computed (non-null) — refuting "each of the three is
null/absent in every other case". -/
theorem relative_return_without_overlap_cx :
    relOf bundleShortOverlap ≠ none ∧
    min (assetRetsOf bundleShortOverlap).length
      (benchRetsOf bundleShortOverlap).length < 5 := by decide

/-- C4 (corrected): correlation and beta are non-null only when both records
are ok and the overlapping return window has length at least 5, and all
three relative statistics are null when either record is not ok; but
`relative_return` is non-null whenever both records are ok, regardless of
the overlap length. -/
theorem relative_stats_guards (b : Bundle) :
    (corrOf b ≠ none → (assetStats b).ok = true ∧ (benchStatsOf b).ok = true ∧
      5 ≤ min (assetRetsOf b).length (benchRetsOf b).length) ∧
    (betaOf b ≠ none → (assetStats b).ok = true ∧ (benchStatsOf b).ok = true ∧
      5 ≤ min (assetRetsOf b).length (benchRetsOf b).length) ∧
    (relOf b ≠ none ↔ (assetStats b).ok = true ∧ (benchStatsOf b).ok = true) ∧
    (¬ ((assetStats b).ok = true ∧ (benchStatsOf b).ok = true) →
      corrOf b = none ∧ betaOf b = none ∧ relOf b = none) := by
  refine ⟨?_, ?_, ?_, ?_⟩
  · intro h
    unfold corrOf at h
    by_cases hb : bothOk b = true
    · exact ⟨(bothOk_iff b).mp hb |>.1, (bothOk_iff b).mp hb |>.2,
        corr_ne_none_overlap _ _ (by rwa [if_pos hb] at h)⟩
    · rw [if_neg hb] at h
      exact absurd rfl h
  · intro h
    unfold betaOf at h
    by_cases hb : bothOk b = true
    · exact ⟨(bothOk_iff b).mp hb |>.1, (bothOk_iff b).mp hb |>.2,
        beta_ne_none_overlap _ _ (by rwa [if_pos hb] at h)⟩
    · rw [if_neg hb] at h
      exact absurd rfl h
  · unfold relOf
    by_cases hb : bothOk b = true
    · rw [if_pos hb]
      simp [(bothOk_iff b).mp hb]
    · rw [if_neg hb]
      simp only [ne_eq, not_true_eq_false, false_iff]
      exact fun hc => hb ((bothOk_iff b).mpr hc)
  · intro h
    have hb : ¬ bothOk b = true := fun hc => h ((bothOk_iff b).mp hc)
    exact ⟨by unfold corrOf; rw [if_neg hb], by unfold betaOf; rw [if_neg hb],
      by unfold relOf; rw [if_neg hb]⟩

/-- C6 (confirmed): for every close-price series of length less than 10 the
Statistics Engine returns exactly the `{ok: false}` record — every statistic
field absent, no default numeric value substituted — and (being a total Lean
function, like the Python which only tests `len` before returning) it never
raises. -/
theorem calc_stats_short_series_not_ok (closes : List ℚ)
    (h : closes.length < 10) :
    _calc_stats closes = statsNotOk ∧ (_calc_stats closes).vol_annual = none := by
  have he : _calc_stats closes = statsNotOk := by
    unfold _calc_stats
    rw [if_pos h]
  exact ⟨he, by rw [he]; rfl⟩

theorem calc_stats_short_series_not_ok_w :
    _calc_stats [1, 2, 3] = statsNotOk ∧
    (_calc_stats [1, 2, 3]).vol_annual = none :=
  calc_stats_short_series_not_ok [1, 2, 3] (by decide)

/-- C7 (confirmed): the Factsheet Builder is a pure deterministic function of
the ticker and bundle — the embedded `_make_factsheet` reads no clock,
environment or randomness (none appear in the source), so identical inputs
give byte-identical factsheet text and meta. -/
theorem make_factsheet_deterministic (t1 t2 : String) (b1 b2 : Bundle)
    (ht : t1 = t2) (hb : b1 = b2) :
    _make_factsheet t1 b1 = _make_factsheet t2 b2 := by rw [ht, hb]

theorem make_factsheet_deterministic_w :
    _make_factsheet "TSLA" bundleEx = _make_factsheet "TSLA" bundleEx :=
  make_factsheet_deterministic "TSLA" "TSLA" bundleEx bundleEx rfl rfl

/-- C10 (confirmed): the validator's field check passes iff every required
field label occurs as a contiguous substring anywhere in the text — a
label inside prose or inside a bullet satisfies it, with no line-initial
requirement. -/
theorem has_fields_substring_iff (text : String) (fields : List String) :
    _has_fields text fields = true ↔
      ∀ f ∈ fields, ∃ u v : List Char, text.data = u ++ f.data ++ v := by
  unfold _has_fields
  rw [List.all_eq_true]
  constructor
  · intro h f hf
    exact (containsSub_iff f.data text.data).mp (h f hf)
  · intro h f hf
    exact (containsSub_iff f.data text.data).mpr (h f hf)

/-! ## Max drawdown lemmas -/

theorem mddAux_cons (peak mdd p : ℚ) (t : List ℚ) :
    mddAux peak mdd (p :: t) =
      mddAux (if peak < p then p else peak)
        (if p / (if peak < p then p else peak) - 1 < mdd
         then p / (if peak < p then p else peak) - 1 else mdd) t := rfl

theorem mddAux_le : ∀ (l : List ℚ) (peak mdd : ℚ), mddAux peak mdd l ≤ mdd := by
  intro l
  induction l with
  | nil => intro peak mdd; exact le_refl mdd
  | cons p t ih =>
    intro peak mdd
    rw [mddAux_cons]
    refine le_trans (ih _ _) ?_
    by_cases hc : p / (if peak < p then p else peak) - 1 < mdd
    · rw [if_pos hc]
      exact le_of_lt hc
    · rw [if_neg hc]

theorem mddAux_monotone_zero : ∀ (l : List ℚ) (peak : ℚ), 0 < peak →
    List.Chain' (· ≤ ·) (peak :: l) → mddAux peak 0 l = 0 := by
  intro l
  induction l with
  | nil => intro peak _ _; rfl
  | cons p t ih =>
    intro peak hpos hchain
    rw [List.chain'_cons] at hchain
    obtain ⟨hle, hch⟩ := hchain
    have hpk : (if peak < p then p else peak) = p := by
      split
      · rfl
      · next h => exact le_antisymm hle (not_lt.mp h)
    have hp : 0 < p := lt_of_lt_of_le hpos hle
    rw [mddAux_cons, hpk, div_self (ne_of_gt hp)]
    norm_num
    exact ih p hp hch

/-- C8 (confirmed): for every close-price series (positive closes, per the
data model) of at least 3 points, the max drawdown is defined and `≤ 0`, and
for a monotonically non-decreasing series it equals `0`. -/
theorem max_drawdown_nonpositive (closes : List ℚ) (h3 : 3 ≤ closes.length)
    (hpos : ∀ x ∈ closes, 0 < x) :
    ∃ m, _max_drawdown closes = some m ∧ m ≤ 0 ∧
      (List.Chain' (· ≤ ·) closes → m = 0) := by
  cases closes with
  | nil => simp at h3
  | cons a t =>
    refine ⟨mddAux a 0 t, ?_, mddAux_le t a 0, ?_⟩
    · unfold _max_drawdown
      rw [if_neg (not_lt.mpr h3)]
      rfl
    · intro hchain
      exact mddAux_monotone_zero t a (hpos a (List.mem_cons_self a t)) hchain

theorem max_drawdown_nonpositive_w :
    ∃ m, _max_drawdown [1, 2, 3] = some m ∧ m ≤ 0 ∧
      (List.Chain' (· ≤ ·) ([1, 2, 3] : List ℚ) → m = 0) :=
  max_drawdown_nonpositive [1, 2, 3] (by decide) (by decide)

/-! ## Constant-ratio series lemmas -/

theorem calc_stats_ret_30d_eq (closes : List ℚ) (h : ¬ closes.length < 10) :
    (_calc_stats closes).ret_30d =
      some (closes.getLastD 0 / closes.headI - 1) := by
  unfold _calc_stats
  rw [if_neg h]

theorem calc_stats_vol_sq_eq (closes : List ℚ) (h : ¬ closes.length < 10) :
    (_calc_stats closes).vol_annual_sq =
      (if 2 ≤ (_daily_returns_from_closes closes).length
       then some (sampleVar (_daily_returns_from_closes closes) * 252)
       else none) := by
  unfold _calc_stats
  rw [if_neg h]

theorem daily_returns_chain (k : ℚ) (hk : 0 < k) : ∀ (l : List ℚ) (a : ℚ),
    0 < a → List.Chain' (fun x y => y = k * x) (a :: l) →
    _daily_returns_from_closes (a :: l) = List.replicate l.length (k - 1) := by
  intro l
  induction l with
  | nil => intro a _ _; rfl
  | cons b t ih =>
    intro a ha hch
    rw [List.chain'_cons] at hch
    obtain ⟨hb, hch⟩ := hch
    have hbpos : 0 < b := by rw [hb]; exact mul_pos hk ha
    have hstep : _daily_returns_from_closes (a :: b :: t) =
        (if (0 : ℚ) < a then [b / a - 1] else []) ++
          _daily_returns_from_closes (b :: t) := rfl
    rw [hstep, if_pos ha, ih b hbpos hch, hb, mul_div_assoc,
      div_self (ne_of_gt ha), mul_one, List.singleton_append, List.length_cons,
      List.replicate_succ]

theorem getLast_chain_ratio (k : ℚ) : ∀ (l : List ℚ) (a d : ℚ),
    List.Chain' (fun x y => y = k * x) (a :: l) →
    (a :: l).getLastD d = a * k ^ l.length := by
  intro l
  induction l with
  | nil => intro a d _; simp
  | cons b t ih =>
    intro a d hch
    rw [List.chain'_cons] at hch
    obtain ⟨hb, hch⟩ := hch
    rw [List.getLastD_cons, ih b a hch, hb, List.length_cons]
    ring

theorem sampleVar_replicate (n : ℕ) (c : ℚ) (hn : 2 ≤ n) :
    sampleVar (List.replicate n c) = 0 := by
  have hn0 : ((n : ℚ)) ≠ 0 := Nat.cast_ne_zero.mpr (by omega)
  have hmean : listMean (List.replicate n c) = c := by
    unfold listMean
    rw [List.sum_replicate, List.length_replicate, nsmul_eq_mul, mul_comm,
      mul_div_assoc, div_self hn0, mul_one]
  unfold sampleVar
  rw [hmean, List.map_replicate]
  simp

/-- C9 (confirmed): for a monotonically increasing series of at least 10
positive closes with constant consecutive ratio `k > 1`, `period_return`
(`ret_30d = last/first − 1`) equals exactly `k^(n−1) − 1` and the annualized
volatility equals `0`. -/
theorem constant_ratio_stats (closes : List ℚ) (k : ℚ) (hn : 10 ≤ closes.length)
    (hk : 1 < k) (hhead : 0 < closes.headI)
    (hchain : List.Chain' (fun x y => y = k * x) closes) :
    (_calc_stats closes).ret_30d = some (k ^ (closes.length - 1) - 1) ∧
    (_calc_stats closes).vol_annual = some 0 := by
  have hnot : ¬ closes.length < 10 := not_lt.mpr hn
  cases closes with
  | nil => simp at hn
  | cons a t =>
    have ha : 0 < a := by simpa [List.headI] using hhead
    have hkpos : 0 < k := lt_trans one_pos hk
    have ht9 : 9 ≤ t.length := by
      simp only [List.length_cons] at hn
      omega
    have hdaily : _daily_returns_from_closes (a :: t) =
        List.replicate t.length (k - 1) := daily_returns_chain k hkpos t a ha hchain
    have hlast : (a :: t).getLastD 0 = a * k ^ t.length :=
      getLast_chain_ratio k t a 0 hchain
    have hlen2 : 2 ≤ (_daily_returns_from_closes (a :: t)).length := by
      rw [hdaily, List.length_replicate]
      omega
    constructor
    · rw [calc_stats_ret_30d_eq _ hnot, hlast]
      have hq : a * k ^ t.length / (a :: t).headI - 1 = k ^ t.length - 1 := by
        simp only [List.headI]
        rw [mul_comm, mul_div_assoc, div_self (ne_of_gt ha), mul_one]
      rw [hq]
      simp [List.length_cons]
    · have hvolsq : (_calc_stats (a :: t)).vol_annual_sq = some 0 := by
        rw [calc_stats_vol_sq_eq _ hnot, if_pos hlen2, hdaily,
          sampleVar_replicate t.length (k - 1) (by omega), zero_mul]
      unfold StatsRecord.vol_annual
      rw [hvolsq]
      simp

/-- The closes `1, 2, 4, …, 512`: ten points with constant ratio 2. -/
def geomEx : List ℚ := [1, 2, 4, 8, 16, 32, 64, 128, 256, 512]

theorem constant_ratio_stats_w :
    (_calc_stats geomEx).ret_30d = some (2 ^ (geomEx.length - 1) - 1) ∧
    (_calc_stats geomEx).vol_annual = some 0 :=
  constant_ratio_stats geomEx 2 (by decide) (by norm_num) (by decide)
    (by norm_num [geomEx, List.chain'_cons, List.chain'_singleton])

/-! ## Validator/Repairer claims -/

/-- C2 (code_bug): with the default `MAX_REPAIR_PASSES = 2` and a draft that
never becomes compliant (the repair collaborator always answers a draft
still missing `RISK FACTORS:`), the loop terminates and returns the last
draft as-is, but it issues `MAX_REPAIR_PASSES + 1 = 3` repair-generation
calls, not the documented `MAX_REPAIR_PASSES = 2` — and the final repair
call's output is returned without ever being checked. -/
theorem ensure_valid_exhausted_call_count :
    _ensure_valid_count (fun _ _ => "draft still missing the risk section")
      ["RISK FACTORS:"] 0 "first draft"
      = ("draft still missing the risk section", MAX_REPAIR_PASSES + 1) := by
  decide

/-- A repair collaborator that answers non-compliant drafts twice and a
compliant section on the third call. -/
def stubbornThenValid : ℕ → String → String :=
  fun j _ => if j = 2 then "STATUS: done" else "still noncompliant"

/-- C3 counterexample: a run that exhausts the repair budget (3 repair calls
issued, every checked draft non-compliant) returns text byte-identical to a
run that was valid immediately (0 repair calls) — `_ensure_valid` returns
only the text, so the caller cannot detect an `EXHAUSTED` status on the
section's output, refuting the claim. -/
theorem exhausted_indistinguishable_from_valid_cx :
    (_ensure_valid_count stubbornThenValid ["STATUS:"] 0 "bad draft").1 =
      (_ensure_valid_count (fun _ s => s) ["STATUS:"] 0 "STATUS: done").1 ∧
    (_ensure_valid_count stubbornThenValid ["STATUS:"] 0 "bad draft").2 =
      MAX_REPAIR_PASSES + 1 ∧
    (_ensure_valid_count (fun _ s => s) ["STATUS:"] 0 "STATUS: done").2 = 0 := by
  decide

/-- C3 (corrected): `_ensure_valid` returns only the final section text — no
validation status accompanies it.  For every check-passing text `t` and
never-compliant draft `d` there is a repair collaborator under which the
budget-exhausting run returns exactly the same output as the immediately
valid run, so exhaustion is not detectable from the section's output. -/
theorem exhaustion_not_detectable_from_output (fields : List String)
    (minB : ℕ) (t d : String)
    (ht : checkSection fields minB (pyStrip t) = true)
    (hd : checkSection fields minB (pyStrip d) = false) :
    ∃ repair : ℕ → String → String,
      (_ensure_valid_count repair fields minB d).2 = MAX_REPAIR_PASSES + 1 ∧
      (_ensure_valid_count (fun _ s => s) fields minB t).2 = 0 ∧
      (_ensure_valid_count repair fields minB d).1 =
        (_ensure_valid_count (fun _ s => s) fields minB t).1 := by
  have hcd : ¬ checkSection fields minB (pyStrip d) = true := by simp [hd]
  have hrun : _ensure_valid_count
      (fun j _ => if j = MAX_REPAIR_PASSES then pyStrip t else pyStrip d)
      fields minB d = (pyStrip t, 3) := by
    show ensureValidAux _ fields minB (2 + 1) 0 (pyStrip d) = (pyStrip t, 3)
    rw [ensureValidAux_succ, if_neg hcd]
    show ensureValidAux _ fields minB (1 + 1) 1
      (if (0 : ℕ) = MAX_REPAIR_PASSES then pyStrip t else pyStrip d) =
        (pyStrip t, 3)
    rw [if_neg (by decide : ¬ (0 : ℕ) = MAX_REPAIR_PASSES),
      ensureValidAux_succ, if_neg hcd]
    show ensureValidAux _ fields minB (0 + 1) 2
      (if (1 : ℕ) = MAX_REPAIR_PASSES then pyStrip t else pyStrip d) =
        (pyStrip t, 3)
    rw [if_neg (by decide : ¬ (1 : ℕ) = MAX_REPAIR_PASSES),
      ensureValidAux_succ, if_neg hcd]
    show ((if (2 : ℕ) = MAX_REPAIR_PASSES then pyStrip t else pyStrip d), 3) =
      (pyStrip t, 3)
    rw [if_pos (by decide : (2 : ℕ) = MAX_REPAIR_PASSES)]
  have hvalid : _ensure_valid_count (fun _ s => s) fields minB t =
      (pyStrip t, 0) := by
    show ensureValidAux _ fields minB (2 + 1) 0 (pyStrip t) = (pyStrip t, 0)
    rw [ensureValidAux_succ, if_pos ht]
  exact ⟨fun j _ => if j = MAX_REPAIR_PASSES then pyStrip t else pyStrip d,
    by rw [hrun]; rfl, by rw [hvalid], by rw [hrun, hvalid]⟩


theorem exhaustion_not_detectable_from_output_w :
    ∃ repair : ℕ → String → String,
      (_ensure_valid_count repair ["STATUS:"] 0 "irrelevant draft").2 =
        MAX_REPAIR_PASSES + 1 ∧
      (_ensure_valid_count (fun _ s => s) ["STATUS:"] 0 "STATUS: ok").2 = 0 ∧
      (_ensure_valid_count repair ["STATUS:"] 0 "irrelevant draft").1 =
        (_ensure_valid_count (fun _ s => s) ["STATUS:"] 0 "STATUS: ok").1 :=
  exhaustion_not_detectable_from_output ["STATUS:"] 0 "STATUS: ok"
    "irrelevant draft" (by decide) (by decide)

end AgentsPy
